import Mathlib

/-!
Verification development for the differential inverse-kinematics controller of
`robosuite/controllers/differential_ik.py` (class
`DifferentialInverseKinematicsController`).

The controller code under `src/robosuite/controllers/differential_ik.py` is
embedded shallowly below.  Collaborators that the repository uses but that are
not part of the provided sources (the transform utilities
`robosuite.utils.transform_utils`, the base `Controller` /
`JointVelocityController` classes, the interpolator objects, and the pybullet
IK backend) are modelled from the specification; each such definition carries a
doc comment starting with `Modelled from the spec:`.

Machine floating point is embedded as exact real arithmetic.
-/

noncomputable section

/-- A 3-vector of reals, embedding a numpy array of shape (3,). -/
@[ext]
structure Vec3 where
  x : ℝ
  y : ℝ
  z : ℝ

instance : Add Vec3 := ⟨fun a b => ⟨a.x + b.x, a.y + b.y, a.z + b.z⟩⟩

instance : Sub Vec3 := ⟨fun a b => ⟨a.x - b.x, a.y - b.y, a.z - b.z⟩⟩

instance : SMul ℝ Vec3 := ⟨fun c v => ⟨c * v.x, c * v.y, c * v.z⟩⟩

instance : Zero Vec3 := ⟨⟨0, 0, 0⟩⟩

/-- Euclidean norm of a 3-vector (`np.linalg.norm`). -/
def norm3 (v : Vec3) : ℝ := Real.sqrt (v.x ^ 2 + v.y ^ 2 + v.z ^ 2)

/-- A quaternion stored in the (x, y, z, w) convention used throughout
robosuite. -/
@[ext]
structure Quat where
  x : ℝ
  y : ℝ
  z : ℝ
  w : ℝ

/-- The identity quaternion (0, 0, 0, 1). -/
def quatId : Quat := ⟨0, 0, 0, 1⟩

/-- Squared norm of a quaternion. -/
def quatNormSq (q : Quat) : ℝ := q.x ^ 2 + q.y ^ 2 + q.z ^ 2 + q.w ^ 2

/-- Norm of a quaternion. -/
def quatNorm (q : Quat) : ℝ := Real.sqrt (quatNormSq q)

/-- Modelled from the spec: quaternion composition `new = old ⊗ relative`
(`robosuite.utils.transform_utils.quat_multiply`, which is not among the
provided sources).  `quatMul q1 q0` is the Hamilton product `q1 * q0` in the
(x, y, z, w) convention. -/
def quatMul (q1 q0 : Quat) : Quat :=
  ⟨q1.x * q0.w + q1.y * q0.z - q1.z * q0.y + q1.w * q0.x,
   -q1.x * q0.z + q1.y * q0.w + q1.z * q0.x + q1.w * q0.y,
   q1.x * q0.y - q1.y * q0.x + q1.z * q0.w + q1.w * q0.z,
   -q1.x * q0.x - q1.y * q0.y - q1.z * q0.z + q1.w * q0.w⟩

/-- A 3×3 matrix of reals given by its three rows. -/
@[ext]
structure Mat3 where
  r1 : Vec3
  r2 : Vec3
  r3 : Vec3

/-- The identity 3×3 matrix. -/
def mat3Id : Mat3 := ⟨⟨1, 0, 0⟩, ⟨0, 1, 0⟩, ⟨0, 0, 1⟩⟩

/-- Dot product of two 3-vectors. -/
def dot3 (a b : Vec3) : ℝ := a.x * b.x + a.y * b.y + a.z * b.z

/-- Column `j` accessors of a row-major matrix. -/
def Mat3.c1 (m : Mat3) : Vec3 := ⟨m.r1.x, m.r2.x, m.r3.x⟩

def Mat3.c2 (m : Mat3) : Vec3 := ⟨m.r1.y, m.r2.y, m.r3.y⟩

def Mat3.c3 (m : Mat3) : Vec3 := ⟨m.r1.z, m.r2.z, m.r3.z⟩

/-- Matrix product (numpy `@`). -/
def matMul (a b : Mat3) : Mat3 :=
  ⟨⟨dot3 a.r1 b.c1, dot3 a.r1 b.c2, dot3 a.r1 b.c3⟩,
   ⟨dot3 a.r2 b.c1, dot3 a.r2 b.c2, dot3 a.r2 b.c3⟩,
   ⟨dot3 a.r3 b.c1, dot3 a.r3 b.c2, dot3 a.r3 b.c3⟩⟩

/-- Modelled from the spec: the standard conversion from a unit quaternion to a
rotation matrix (`robosuite.utils.transform_utils.quat2mat`, not among the
provided sources). -/
def quatToMat (q : Quat) : Mat3 :=
  ⟨⟨1 - 2 * (q.y ^ 2 + q.z ^ 2), 2 * (q.x * q.y - q.z * q.w), 2 * (q.x * q.z + q.y * q.w)⟩,
   ⟨2 * (q.x * q.y + q.z * q.w), 1 - 2 * (q.x ^ 2 + q.z ^ 2), 2 * (q.y * q.z - q.x * q.w)⟩,
   ⟨2 * (q.x * q.z - q.y * q.w), 2 * (q.y * q.z + q.x * q.w), 1 - 2 * (q.x ^ 2 + q.y ^ 2)⟩⟩

/-- Modelled from the spec: `robosuite.utils.transform_utils.axisangle2quat`
(not among the provided sources) — convert a scaled axis-angle 3-vector to a
unit quaternion; a zero-magnitude rotation is treated as the identity
rotation. -/
def axisangle2quat (a : Vec3) : Quat :=
  if norm3 a = 0 then quatId
  else
    ⟨a.x / norm3 a * Real.sin (norm3 a / 2),
     a.y / norm3 a * Real.sin (norm3 a / 2),
     a.z / norm3 a * Real.sin (norm3 a / 2),
     Real.cos (norm3 a / 2)⟩

/-- Modelled from the spec: `robosuite.utils.transform_utils.clip_translation`
(not among the provided sources) — clip a positional delta to a maximum
magnitude, preserving its direction; a delta at or below the limit is returned
unchanged. -/
def clip_translation (dpos : Vec3) (limit : ℝ) : Vec3 :=
  if limit < norm3 dpos then (limit / norm3 dpos) • dpos else dpos

/-- Modelled from the spec: the composite of `T.axisangle2quat` and
`T.clip_rotation` applied by `_clip_ik_input` to the rotational delta (neither
utility is among the provided sources) — convert a scaled axis-angle rotational
delta to a quaternion after clipping its angular magnitude to `limit`,
preserving the rotation axis. -/
def clipRotDelta (a : Vec3) (limit : ℝ) : Quat :=
  if norm3 a ≤ limit then axisangle2quat a
  else axisangle2quat ((limit / norm3 a) • a)

/-- The positional path of `_clip_ik_input` (source lines 386–388): clip the
positional delta only when some component is nonzero (`dpos.any()`), the
division-by-zero guard. -/
def clipIkInputPos (ikPosLimit : ℝ) (dpos : Vec3) : Vec3 :=
  if dpos.x ≠ 0 ∨ dpos.y ≠ 0 ∨ dpos.z ≠ 0 then clip_translation dpos ikPosLimit
  else dpos

/-- The constant matrix `set_ori = [[0,1,0],[1,0,0],[0,0,-1]]` from
`_make_input` (source line 421). -/
def setOriMat : Mat3 := ⟨⟨0, 1, 0⟩, ⟨1, 0, 0⟩, ⟨0, 0, -1⟩⟩

/-- Modelled from the spec: `T.mat2quat setOriMat`, the quaternion of the
rotation by π about the axis (1,1,0)/√2, which is the rotation the constant
matrix `setOriMat` represents (validated by `quatToMat_fixedOrnQuat` below). -/
def fixedOrnQuat : Quat := ⟨Real.sqrt 2 / 2, Real.sqrt 2 / 2, 0, 0⟩

/-- First three entries of a list as a `Vec3` (the numpy slice `a[:3]`). -/
def vec3OfList (l : List ℝ) : Vec3 := ⟨l.getD 0 0, l.getD 1 0, l.getD 2 0⟩

/-- Modelled from the spec: the position interpolator (an optional collaborator
of the controller; the interpolator class is not among the provided sources).
It stores an interpolation `order` (only order 1, linear, is supported), a
`goal` that is overwritten by every `set_goal`, and produces a time-smoothed
value at each successive per-tick query; `path` abstracts the value produced at
the k-th query and `step` the per-tick progress counter. -/
structure PosInterp where
  order : ℕ
  goal : Vec3
  path : ℕ → Vec3
  step : ℕ

/-- Modelled from the spec: the orientation interpolator, as `PosInterp` but
carrying quaternions. -/
structure OriInterp where
  order : ℕ
  goal : Quat
  path : ℕ → Quat
  step : ℕ

/-- Modelled from the spec: `get_interpolated_goal` on the position
interpolator — return the value at the current progress and advance progress by
one control tick. -/
def interpPosGoal (ip : PosInterp) : Vec3 × PosInterp :=
  (ip.path ip.step, { ip with step := ip.step + 1 })

/-- Modelled from the spec: `set_goal` on the position interpolator — replace
the pending goal and restart progress. -/
def interpPosSetGoal (ip : PosInterp) (g : Vec3) : PosInterp :=
  { ip with goal := g, step := 0 }

/-- Modelled from the spec: `get_interpolated_goal` on the orientation
interpolator. -/
def interpOriGoal (io : OriInterp) : Quat × OriInterp :=
  (io.path io.step, { io with step := io.step + 1 })

/-- Modelled from the spec: `set_goal` on the orientation interpolator. -/
def interpOriSetGoal (io : OriInterp) (g : Quat) : OriInterp :=
  { io with goal := g, step := 0 }

/-- Modelled from the spec: the collaborators of the controller that the
repository provides outside the given sources — the frame-offset data filled in
by the pybullet setup (`base_orn_offset_inv`, `rotation_offset`,
`ik_robot_target_pos_offset`), the base-to-world pose conversion
(`bullet_base_pose_to_world_pose`), the matrix-to-quaternion conversion
(`T.mat2quat`), the relative-orientation error (`orientation_error`), the
bounded-iteration deterministic IK solver (the converge loop over
`inverse_kinematics`), the action transform applied by the underlying
joint-velocity controller's `set_goal`, and the torque computation of the
underlying joint-velocity controller's `run_controller` (which reads only
state the differential-IK layer does not own, besides the stored velocity
goal). -/
structure Backend where
  baseOrnOffsetInv : Mat3
  rotationOffset : Mat3
  ikRobotTargetPosOffset : Vec3
  bulletBaseToWorld : Vec3 × Quat → Vec3 × Quat
  mat2quat : Mat3 → Quat
  orientationError : Mat3 → Mat3 → Vec3
  solve : Vec3 × Quat → List ℝ
  scaleAction : List ℝ → List ℝ
  superTorques : Option (List ℝ) → List ℝ → List ℝ

/-- The state of a `DifferentialInverseKinematicsController` instance: the
construction-time configuration (`useOri`, `useZOri`, the two clip limits, the
fixed `userSensitivity = 0.3`), the simulator-derived pose estimate (`eePos`,
`eeOriMat`, `jointPos`, refreshed by `update`), and the mutable controller
fields of the source class. -/
structure CtrlState where
  useOri : Bool
  useZOri : Bool
  ikPosLimit : ℝ
  ikOriLimit : ℝ
  userSensitivity : ℝ
  eePos : Vec3
  eeOriMat : Mat3
  jointPos : List ℝ
  referenceTargetPos : Vec3
  referenceTargetOrn : Quat
  ikRobotTargetPos : Vec3
  ikRobotTargetOrn : Option Quat
  commandedJointPositions : Option (List ℝ)
  commandedJointVelocities : Option (List ℝ)
  interpolatorPos : Option PosInterp
  interpolatorOri : Option OriInterp
  oriRef : Option Mat3
  relativeOri : Option Vec3
  goalVel : Option (List ℝ)

/-- The simulator state the controller reads (end-effector pose and joint
positions of the controlled joints). -/
structure Sim where
  eePos : Vec3
  eeOriMat : Mat3
  jointPos : List ℝ

/-- Modelled from the spec: the base controller's `update` — refresh the
internal pose estimate from the simulated state; it touches no
differential-IK-level field. -/
def update (sim : Sim) (st : CtrlState) : CtrlState :=
  { st with eePos := sim.eePos, eeOriMat := sim.eeOriMat, jointPos := sim.jointPos }

/-- `control_dim` as computed in `__init__` (source lines 103–105): 6 when
`use_ori` else 3, plus 1 when `use_z_ori`. -/
def controlDim (useOri useZOri : Bool) : ℕ :=
  (if useOri then 6 else 3) + (if useZOri then 1 else 0)

/-- The `max_limit` array built by the `control_limits` property (source lines
461–466). -/
def controlLimitsMax (st : CtrlState) : List ℝ :=
  if st.useOri then List.replicate 3 st.ikPosLimit ++ List.replicate 3 st.ikOriLimit
  else if st.useZOri then List.replicate 3 st.ikPosLimit ++ [st.ikOriLimit]
  else List.replicate 3 st.ikPosLimit

/-- The `control_limits` property (source lines 449–467): the pair
`(-max_limit, max_limit)`. -/
def control_limits (st : CtrlState) : List ℝ × List ℝ :=
  ((controlLimitsMax st).map Neg.neg, controlLimitsMax st)

/-- The rotation-matrix computation at the head of
`joint_positions_for_eef_command` (source lines 230–233); `none` embeds the
`TypeError` raised when both `rotation` and `desired_rotation` are absent. -/
def eefCommandRotation (B : Backend) (st : CtrlState)
    (rotation desiredRotation : Option Mat3) : Option Mat3 :=
  match rotation with
  | some r => some (matMul B.baseOrnOffsetInv (matMul st.eeOriMat (matMul r B.rotationOffset)))
  | none =>
    match desiredRotation with
    | some dr => some (matMul B.baseOrnOffsetInv (matMul dr B.rotationOffset))
    | none => none

/-- The target-pose selection of `joint_positions_for_eef_command` (source
lines 236–239). -/
def eefCommandTargets (B : Backend) (st : CtrlState) (dpos : Vec3) (rot : Mat3) :
    Vec3 × Quat :=
  if st.interpolatorPos.isSome || st.interpolatorOri.isSome then
    (st.eePos + dpos + B.ikRobotTargetPosOffset, B.mat2quat rot)
  else
    (st.ikRobotTargetPos + dpos, B.mat2quat rot)

/-- The `update_targets` side effect of `joint_positions_for_eef_command`
(source lines 245–250). -/
def eefCommandUpdate (B : Backend) (st : CtrlState) (dpos : Vec3) (rot : Mat3)
    (updateTargets : Bool) : CtrlState :=
  if updateTargets then
    { st with ikRobotTargetPos := st.ikRobotTargetPos + dpos,
              ikRobotTargetOrn := some (B.mat2quat rot) }
  else st

/-- `joint_positions_for_eef_command` exactly as it stands in the source
(lines 210–254): the rotation and targets are computed and the
`update_targets` side effect applied, but the converge-to-IK-solution step has
been removed — `arm_joint_pos = None` is returned.  The inner `Option (List ℝ)`
is the returned Python value. -/
def jointPositionsForEefCommand (B : Backend) (st : CtrlState) (dpos : Vec3)
    (rotation desiredRotation : Option Mat3) (updateTargets : Bool) :
    Option (CtrlState × Option (List ℝ)) :=
  (eefCommandRotation B st rotation desiredRotation).map fun rot =>
    let _worldTargets := B.bulletBaseToWorld (eefCommandTargets B st dpos rot)
    (eefCommandUpdate B st dpos rot updateTargets, none)

/-- Modelled from the spec: `joint_positions_for_eef_command` with the missing
converge-to-IK-solution step restored — the bounded-iteration solver
(`B.solve`) is invoked on the world-frame targets and its joint-angle solution
returned, as the source's own doc comment and the specification describe. -/
def jointPositionsForEefCommandSpec (B : Backend) (st : CtrlState) (dpos : Vec3)
    (rotation desiredRotation : Option Mat3) (updateTargets : Bool) :
    Option (CtrlState × List ℝ) :=
  (eefCommandRotation B st rotation desiredRotation).map fun rot =>
    (eefCommandUpdate B st dpos rot updateTargets,
     B.solve (B.bulletBaseToWorld (eefCommandTargets B st dpos rot)))

/-- `get_control` (source lines 154–194), built on the spec-completed IK
pipeline `jointPositionsForEefCommandSpec`.  When `dpos` and `rotation` are
both present the IK pipeline is called with `rotation`; otherwise with
`desired_rotation`.  With `z_rot` present, the last commanded joint position is
overwritten by the current last joint angle plus `z_rot` (source lines
183–186).  The P loop `velocities[i] = -10.0 * (joint_pos[i] - commanded[i])`
(source lines 188–191) is embedded as a `zipWith` over the equal-length
arrays; `none` embeds the exception raised when `dpos` is absent. -/
def get_control (B : Backend) (st : CtrlState) (dpos : Option Vec3)
    (rotation desiredRotation : Option Mat3) (zRot : Option ℝ)
    (updateTargets : Bool) : Option (CtrlState × List ℝ) :=
  let res :=
    if dpos.isSome && rotation.isSome then
      match dpos with
      | some dp => jointPositionsForEefCommandSpec B st dp rotation none updateTargets
      | none => none
    else
      match dpos with
      | some dp => jointPositionsForEefCommandSpec B st dp none desiredRotation updateTargets
      | none => none
  match res with
  | none => none
  | some (st1, sol) =>
    let cmdPos :=
      match zRot with
      | some z => sol.dropLast ++ [st1.jointPos.getLastD 0 + z]
      | none => sol
    let velocities := List.zipWith (fun p c => -10 * (p - c)) st1.jointPos cmdPos
    some ({ st1 with commandedJointPositions := some cmdPos,
                     commandedJointVelocities := some velocities }, velocities)

/-- The dictionary `_make_input` returns (source lines 418, 425–429): the
scaled positional delta and, depending on the orientation mode, either a
relative rotation matrix or a fixed desired rotation plus an optional yaw
term. -/
structure ControlRequest where
  dpos : Vec3
  rotation : Option Mat3
  desiredRotation : Option Mat3
  zRot : Option ℝ

/-- `_make_input` (source lines 401–429): clip the raw action, update the
reference targets (`reference_target_orn` by quaternion composition with the
clipped relative rotation in full-pose mode, or pinned to the fixed frame
`setOriMat` otherwise; `reference_target_pos` by adding the clipped positional
delta scaled by `user_sensitivity`), and return the control request.  In the
non-`use_ori` branch the local `rotation = quat_multiply(old, quat_inverse(...))`
of source line 423 is dead code (its only use, line 428, is commented out) and
is omitted. -/
def make_input (st : CtrlState) (action : List ℝ) (oldQuat : Quat) :
    CtrlState × ControlRequest :=
  let dpos := clipIkInputPos st.ikPosLimit (vec3OfList action)
  if st.useOri then
    let rotation := clipRotDelta (vec3OfList (action.drop 3)) st.ikOriLimit
    ({ st with referenceTargetOrn := quatMul oldQuat rotation,
               referenceTargetPos := st.referenceTargetPos + st.userSensitivity • dpos },
     ⟨st.userSensitivity • dpos, some (quatToMat rotation), none, none⟩)
  else
    ({ st with referenceTargetOrn := fixedOrnQuat,
               referenceTargetPos := st.referenceTargetPos + st.userSensitivity • dpos },
     ⟨st.userSensitivity • dpos, none, some setOriMat,
      if st.useZOri then some (st.ikOriLimit * action.getD 3 0) else none⟩)

/-- `set_goal` (source lines 256–305): refresh the pose estimate, clip the raw
delta, push interpolator goals when the interpolators are configured, run
`_make_input` with the current `reference_target_orn`, select
rotation / desired_rotation / z_rot according to the orientation mode (which
`_make_input`'s returned request already encodes), compute velocities via
`get_control` with `update_targets=True`, and hand the velocities to the
underlying joint-velocity controller. -/
def set_goal (B : Backend) (sim : Sim) (st0 : CtrlState) (delta : List ℝ) :
    Option CtrlState :=
  let st := update sim st0
  let dpos0 := clipIkInputPos st.ikPosLimit (vec3OfList delta)
  let dquat0 := clipRotDelta (vec3OfList (delta.drop 3)) st.ikOriLimit
  let st1 :=
    { st with
      interpolatorPos := st.interpolatorPos.map fun ip =>
        interpPosSetGoal ip (st.userSensitivity • dpos0 + st.referenceTargetPos),
      interpolatorOri := st.interpolatorOri.map fun io => interpOriSetGoal io dquat0,
      oriRef := if st.interpolatorOri.isSome then some st.eeOriMat else st.oriRef,
      relativeOri := if st.interpolatorOri.isSome then some (0 : Vec3) else st.relativeOri }
  let mi := make_input st1 delta st1.referenceTargetOrn
  match get_control B mi.1 (some mi.2.dpos) mi.2.rotation mi.2.desiredRotation mi.2.zRot true with
  | none => none
  | some (st3, velocities) => some { st3 with goalVel := some (B.scaleAction velocities) }

/-- `run_controller` (source lines 307–354): refresh the pose estimate; read
the interpolated position goal when a position interpolator of order 1 is
configured (for any other order the branch falls through and `desired_pos`
keeps its Python-`None` initial value); likewise for orientation (also
recording `relative_ori`); when either interpolator is configured, recompute
joint velocities via `get_control` (with `update_targets` left `False`) and
store them as the velocity goal; finally delegate to the underlying
joint-velocity controller.  `none` embeds the exceptions raised downstream of
an unassigned `desired_pos` or `rotation`. -/
def run_controller (B : Backend) (sim : Sim) (st0 : CtrlState) :
    Option (CtrlState × List ℝ) :=
  let st := update sim st0
  let posStep : Option Vec3 × CtrlState :=
    match st.interpolatorPos with
    | some ip =>
      if ip.order = 1 then
        let g := interpPosGoal ip
        (some g.1, { st with interpolatorPos := some g.2 })
      else (none, st)
    | none => (some st.referenceTargetPos, st)
  let st1 := posStep.2
  let oriStep : Option (Option Mat3 × CtrlState) :=
    match st1.interpolatorOri with
    | some io =>
      if io.order = 1 then
        match st1.oriRef with
        | some oref =>
          let g := interpOriGoal io
          some (some (quatToMat g.1),
            { st1 with relativeOri := some (B.orientationError st1.eeOriMat oref),
                       interpolatorOri := some g.2 })
        | none => none
      else some (none, st1)
    | none => some (some (quatToMat st1.referenceTargetOrn), st1)
  match oriStep with
  | none => none
  | some (rotation, st2) =>
    if st.interpolatorPos.isSome || st.interpolatorOri.isSome then
      match posStep.1 with
      | none => none
      | some dp =>
        match get_control B st2 (some (dp - st2.eePos)) rotation none none false with
        | none => none
        | some (st3, velocities) =>
          some ({ st3 with goalVel := some (B.scaleAction velocities) },
                B.superTorques (some (B.scaleAction velocities)) st3.jointPos)
    else
      some (st2, B.superTorques st2.goalVel st2.jointPos)

/-- A sequence of `set_goal` calls, one per action in the list. -/
def setGoalSeq (B : Backend) (sim : Sim) : List (List ℝ) → CtrlState → Option CtrlState
  | [], st => some st
  | d :: ds, st => (set_goal B sim st d).bind (setGoalSeq B sim ds)

/-- `n` repetitions of `set_goal` with the same action. -/
def setGoalN (B : Backend) (sim : Sim) (delta : List ℝ) : ℕ → CtrlState → Option CtrlState
  | 0, st => some st
  | n + 1, st => (set_goal B sim st delta).bind (setGoalN B sim delta n)

/-- A concrete backend used to instantiate theorems at concrete inputs. -/
def B0 : Backend :=
  ⟨mat3Id, mat3Id, 0, id, fun _ => quatId, fun _ _ => 0, fun _ => [0, 0], id, fun _ _ => []⟩

/-- A concrete simulator state. -/
def sim0 : Sim := ⟨0, mat3Id, [0, 0]⟩

/-- A concrete controller state in full-pose mode, as constructed with
`ik_pos_limit = 0.05`, `ik_ori_limit = 0.25` and the fixed
`user_sensitivity = 0.3`. -/
def baseState : CtrlState where
  useOri := true
  useZOri := false
  ikPosLimit := 1 / 20
  ikOriLimit := 1 / 4
  userSensitivity := 3 / 10
  eePos := 0
  eeOriMat := mat3Id
  jointPos := [0, 0]
  referenceTargetPos := 0
  referenceTargetOrn := quatId
  ikRobotTargetPos := 0
  ikRobotTargetOrn := none
  commandedJointPositions := none
  commandedJointVelocities := none
  interpolatorPos := none
  interpolatorOri := none
  oriRef := none
  relativeOri := none
  goalVel := none

/-- The unsupported configuration with both orientation flags set. -/
def stateBothOri : CtrlState := { baseState with useOri := true, useZOri := true }

/-- A position-only controller state (`use_ori = False`, `use_z_ori = False`). -/
def statePosOnly : CtrlState := { baseState with useOri := false }

/-- A state with a position interpolator of (unsupported) order 2. -/
def stateInterpOrder2 : CtrlState :=
  { baseState with interpolatorPos := some ⟨2, 0, fun _ => 0, 0⟩ }

/-- The all-zero 6-dimensional action. -/
def zeros6 : List ℝ := [0, 0, 0, 0, 0, 0]

/-- The action [0.1, 0, 0, 0, 0, 0] of the C4 scenario. -/
def deltaX : List ℝ := [1 / 10, 0, 0, 0, 0, 0]

/-- The velocity list produced by the C5 witness call. -/
def velW5 : List ℝ := [-10 * ((0 : ℝ) - 0), -10 * ((0 : ℝ) - 0)]

/-- The state produced by the C5 witness call. -/
def stW5 : CtrlState :=
  { baseState with commandedJointPositions := some [0, 0],
                   commandedJointVelocities := some velW5 }

/-- A yaw-only controller state (`use_ori = False`, `use_z_ori = True`), the
mode whose `set_goal` path passes a `z_rot` to `get_control`. -/
def stateYawOnly : CtrlState := { baseState with useOri := false, useZOri := true }

/-- The commanded-position list produced by the C6 witness call. -/
def cmdW6 : List ℝ := [0, (0 : ℝ) + 1]

/-- The velocity list produced by the C6 witness call. -/
def velW6 : List ℝ := [-10 * ((0 : ℝ) - 0), -10 * ((0 : ℝ) - (0 + 1))]

/-- The state produced by the C6 witness call. -/
def stW6 : CtrlState :=
  { stateYawOnly with commandedJointPositions := some cmdW6,
                      commandedJointVelocities := some velW6 }

@[simp]
lemma Vec3.add_x (a b : Vec3) : (a + b).x = a.x + b.x := rfl

@[simp]
lemma Vec3.add_y (a b : Vec3) : (a + b).y = a.y + b.y := rfl

@[simp]
lemma Vec3.add_z (a b : Vec3) : (a + b).z = a.z + b.z := rfl

@[simp]
lemma Vec3.smul_x (c : ℝ) (v : Vec3) : (c • v).x = c * v.x := rfl

@[simp]
lemma Vec3.smul_y (c : ℝ) (v : Vec3) : (c • v).y = c * v.y := rfl

@[simp]
lemma Vec3.smul_z (c : ℝ) (v : Vec3) : (c • v).z = c * v.z := rfl

@[simp]
lemma Vec3.zero_x : (0 : Vec3).x = 0 := rfl

@[simp]
lemma Vec3.zero_y : (0 : Vec3).y = 0 := rfl

@[simp]
lemma Vec3.zero_z : (0 : Vec3).z = 0 := rfl

lemma Vec3.smul_zero (c : ℝ) : c • (0 : Vec3) = 0 := by
  ext <;> simp

lemma Vec3.add_zero (v : Vec3) : v + 0 = v := by
  ext <;> simp

lemma norm3_nonneg (v : Vec3) : 0 ≤ norm3 v := Real.sqrt_nonneg _

lemma norm3_zero : norm3 (0 : Vec3) = 0 := by
  simp [norm3]

lemma norm3_eq_zero {v : Vec3} : norm3 v = 0 ↔ v = 0 := by
  unfold norm3
  rw [Real.sqrt_eq_zero (by positivity)]
  constructor
  · intro h
    have hx : v.x = 0 := (pow_eq_zero_iff two_ne_zero).mp
      (by nlinarith [sq_nonneg v.x, sq_nonneg v.y, sq_nonneg v.z])
    have hy : v.y = 0 := (pow_eq_zero_iff two_ne_zero).mp
      (by nlinarith [sq_nonneg v.x, sq_nonneg v.y, sq_nonneg v.z])
    have hz : v.z = 0 := (pow_eq_zero_iff two_ne_zero).mp
      (by nlinarith [sq_nonneg v.x, sq_nonneg v.y, sq_nonneg v.z])
    ext <;> simp [hx, hy, hz]
  · intro h
    rw [h]
    simp

lemma norm3_smul (c : ℝ) (v : Vec3) : norm3 (c • v) = |c| * norm3 v := by
  unfold norm3
  rw [show (c • v).x ^ 2 + (c • v).y ^ 2 + (c • v).z ^ 2
        = c ^ 2 * (v.x ^ 2 + v.y ^ 2 + v.z ^ 2) by simp; ring,
      Real.sqrt_mul (sq_nonneg c), Real.sqrt_sq_eq_abs]

lemma quatMul_quatId (q : Quat) : quatMul q quatId = q := by
  ext <;> simp [quatMul, quatId]

lemma quatNormSq_quatMul (p q : Quat) :
    quatNormSq (quatMul p q) = quatNormSq p * quatNormSq q := by
  unfold quatNormSq quatMul
  dsimp
  ring

lemma quatNormSq_nonneg (q : Quat) : 0 ≤ quatNormSq q := by
  unfold quatNormSq
  positivity

lemma quatNorm_eq_one {q : Quat} : quatNorm q = 1 ↔ quatNormSq q = 1 := by
  unfold quatNorm
  constructor
  · intro h
    have := Real.sq_sqrt (quatNormSq_nonneg q)
    rw [h] at this
    nlinarith [this]
  · intro h
    rw [h, Real.sqrt_one]

lemma quatNormSq_quatId : quatNormSq quatId = 1 := by
  simp [quatNormSq, quatId]

lemma axisangle2quat_normSq (a : Vec3) : quatNormSq (axisangle2quat a) = 1 := by
  unfold axisangle2quat
  split
  · exact quatNormSq_quatId
  · rename_i h
    have hS : norm3 a ^ 2 = a.x ^ 2 + a.y ^ 2 + a.z ^ 2 := Real.sq_sqrt (by positivity)
    have hs := Real.sin_sq_add_cos_sq (norm3 a / 2)
    unfold quatNormSq
    dsimp
    field_simp
    nlinarith [hs, hS]

lemma axisangle2quat_zero : axisangle2quat (0 : Vec3) = quatId := by
  unfold axisangle2quat
  rw [if_pos norm3_zero]

lemma clipRotDelta_normSq (a : Vec3) (l : ℝ) : quatNormSq (clipRotDelta a l) = 1 := by
  unfold clipRotDelta
  split <;> exact axisangle2quat_normSq _

lemma clipRotDelta_zero (l : ℝ) : clipRotDelta (0 : Vec3) l = quatId := by
  unfold clipRotDelta
  split
  · exact axisangle2quat_zero
  · rw [Vec3.smul_zero]
    exact axisangle2quat_zero

lemma fixedOrnQuat_normSq : quatNormSq fixedOrnQuat = 1 := by
  have h : Real.sqrt 2 ^ 2 = 2 := Real.sq_sqrt (by norm_num)
  unfold quatNormSq fixedOrnQuat
  dsimp
  nlinarith [h]

lemma fixedOrnQuat_ne_quatId : fixedOrnQuat ≠ quatId := by
  intro h
  have := congrArg Quat.w h
  simp [fixedOrnQuat, quatId] at this

lemma clipIkInputPos_zero (l : ℝ) : clipIkInputPos l (0 : Vec3) = 0 := by
  unfold clipIkInputPos
  rw [if_neg]
  simp

/-- A sanity check that `fixedOrnQuat` indeed represents the constant rotation
matrix `setOriMat` of the source. -/
lemma quatToMat_fixedOrnQuat : quatToMat fixedOrnQuat = setOriMat := by
  have h : Real.sqrt 2 ^ 2 = 2 := Real.sq_sqrt (by norm_num)
  unfold quatToMat fixedOrnQuat setOriMat
  ext <;> dsimp <;> nlinarith [h]

lemma getD_zipWith (f : ℝ → ℝ → ℝ) :
    ∀ (l l' : List ℝ) (i : ℕ), i < (List.zipWith f l l').length →
      (List.zipWith f l l').getD i 0 = f (l.getD i 0) (l'.getD i 0)
  | [], _, _, h => by simp at h
  | _ :: _, [], _, h => by simp at h
  | a :: l, b :: l', 0, _ => rfl
  | a :: l, b :: l', i + 1, h => by
    simpa using getD_zipWith f l l' i (by simpa using h)

lemma setLast_length (l : List ℝ) (v : ℝ) (h : l ≠ []) :
    (l.dropLast ++ [v]).length = l.length := by
  rw [List.length_append, List.length_dropLast, List.length_singleton]
  have : 0 < l.length := List.length_pos.2 h
  omega

lemma setLast_getLastD (l : List ℝ) (v : ℝ) :
    (l.dropLast ++ [v]).getLastD 0 = v := by
  rw [List.getLastD_eq_getLast?, List.getLast?_append]
  rfl

lemma getD_dropLast : ∀ (l : List ℝ) (i : ℕ), i + 1 < l.length →
    l.dropLast.getD i 0 = l.getD i 0
  | [], _, h => by simp at h
  | [a], _, h => by simp at h
  | a :: b :: l, 0, _ => rfl
  | a :: b :: l, i + 1, h => by
    have := getD_dropLast (b :: l) i (by simpa using h)
    simpa [List.dropLast] using this

lemma setLast_getD (l : List ℝ) (v : ℝ) (i : ℕ) (h : i + 1 < l.length) :
    (l.dropLast ++ [v]).getD i 0 = l.getD i 0 := by
  rw [List.getD_append]
  · exact getD_dropLast l i h
  · rw [List.length_dropLast]
    omega

@[simp]
lemma update_proj (sim : Sim) (st : CtrlState) :
    (update sim st).useOri = st.useOri ∧
    (update sim st).useZOri = st.useZOri ∧
    (update sim st).ikPosLimit = st.ikPosLimit ∧
    (update sim st).ikOriLimit = st.ikOriLimit ∧
    (update sim st).userSensitivity = st.userSensitivity ∧
    (update sim st).referenceTargetPos = st.referenceTargetPos ∧
    (update sim st).referenceTargetOrn = st.referenceTargetOrn ∧
    (update sim st).ikRobotTargetPos = st.ikRobotTargetPos ∧
    (update sim st).commandedJointPositions = st.commandedJointPositions ∧
    (update sim st).commandedJointVelocities = st.commandedJointVelocities ∧
    (update sim st).interpolatorPos = st.interpolatorPos ∧
    (update sim st).interpolatorOri = st.interpolatorOri ∧
    (update sim st).goalVel = st.goalVel :=
  ⟨rfl, rfl, rfl, rfl, rfl, rfl, rfl, rfl, rfl, rfl, rfl, rfl, rfl⟩

lemma eefCommandUpdate_false (B : Backend) (st : CtrlState) (d : Vec3) (r : Mat3) :
    eefCommandUpdate B st d r false = st := rfl

lemma eefCommandUpdate_jointPos (B : Backend) (st : CtrlState) (d : Vec3) (r : Mat3)
    (u : Bool) : (eefCommandUpdate B st d r u).jointPos = st.jointPos := by
  unfold eefCommandUpdate
  split <;> rfl

lemma eefCommandUpdate_refPos (B : Backend) (st : CtrlState) (d : Vec3) (r : Mat3)
    (u : Bool) : (eefCommandUpdate B st d r u).referenceTargetPos = st.referenceTargetPos := by
  unfold eefCommandUpdate
  split <;> rfl

lemma eefCommandUpdate_refOrn (B : Backend) (st : CtrlState) (d : Vec3) (r : Mat3)
    (u : Bool) : (eefCommandUpdate B st d r u).referenceTargetOrn = st.referenceTargetOrn := by
  unfold eefCommandUpdate
  split <;> rfl

lemma eefCommandUpdate_flags (B : Backend) (st : CtrlState) (d : Vec3) (r : Mat3)
    (u : Bool) :
    (eefCommandUpdate B st d r u).useOri = st.useOri ∧
    (eefCommandUpdate B st d r u).useZOri = st.useZOri ∧
    (eefCommandUpdate B st d r u).ikPosLimit = st.ikPosLimit ∧
    (eefCommandUpdate B st d r u).ikOriLimit = st.ikOriLimit ∧
    (eefCommandUpdate B st d r u).userSensitivity = st.userSensitivity := by
  unfold eefCommandUpdate
  split <;> exact ⟨rfl, rfl, rfl, rfl, rfl⟩

/-- `get_control` with `dpos` and `rotation` both present, evaluated one step
(the `desired_rotation` argument is ignored on this path). -/
lemma get_control_rot_eq (B : Backend) (st : CtrlState) (dp : Vec3) (rot : Mat3)
    (drot : Option Mat3) (zr : Option ℝ) (u : Bool) :
    get_control B st (some dp) (some rot) drot zr u =
      (let m := matMul B.baseOrnOffsetInv (matMul st.eeOriMat (matMul rot B.rotationOffset))
       let st1 := eefCommandUpdate B st dp m u
       let sol := B.solve (B.bulletBaseToWorld (eefCommandTargets B st dp m))
       let cmd := match zr with
         | some z => sol.dropLast ++ [st1.jointPos.getLastD 0 + z]
         | none => sol
       let vel := List.zipWith (fun p c => -10 * (p - c)) st1.jointPos cmd
       some ({ st1 with commandedJointPositions := some cmd,
                        commandedJointVelocities := some vel }, vel)) := rfl

/-- `get_control` with `rotation` absent and `desired_rotation` present,
evaluated one step. -/
lemma get_control_desrot_eq (B : Backend) (st : CtrlState) (dp : Vec3) (drot : Mat3)
    (zr : Option ℝ) (u : Bool) :
    get_control B st (some dp) none (some drot) zr u =
      (let m := matMul B.baseOrnOffsetInv (matMul drot B.rotationOffset)
       let st1 := eefCommandUpdate B st dp m u
       let sol := B.solve (B.bulletBaseToWorld (eefCommandTargets B st dp m))
       let cmd := match zr with
         | some z => sol.dropLast ++ [st1.jointPos.getLastD 0 + z]
         | none => sol
       let vel := List.zipWith (fun p c => -10 * (p - c)) st1.jointPos cmd
       some ({ st1 with commandedJointPositions := some cmd,
                        commandedJointVelocities := some vel }, vel)) := rfl

/-- `get_control` with `dpos` absent raises (`None` arithmetic downstream). -/
lemma get_control_nodpos (B : Backend) (st : CtrlState)
    (rotation desiredRotation : Option Mat3) (zr : Option ℝ) (u : Bool) :
    get_control B st none rotation desiredRotation zr u = none := by
  unfold get_control
  cases rotation <;> rfl

/-- `get_control` with neither `rotation` nor `desired_rotation` raises. -/
lemma get_control_norot (B : Backend) (st : CtrlState) (dp : Vec3) (zr : Option ℝ)
    (u : Bool) : get_control B st (some dp) none none zr u = none := rfl

/-- `set_goal` always succeeds and updates the reference targets as
`_make_input` dictates, preserving the construction-time configuration. -/
lemma set_goal_exists (B : Backend) (sim : Sim) (st : CtrlState) (delta : List ℝ) :
    ∃ st', set_goal B sim st delta = some st' ∧
      st'.useOri = st.useOri ∧
      st'.userSensitivity = st.userSensitivity ∧
      st'.ikPosLimit = st.ikPosLimit ∧
      st'.ikOriLimit = st.ikOriLimit ∧
      st'.referenceTargetPos = st.referenceTargetPos +
        st.userSensitivity • clipIkInputPos st.ikPosLimit (vec3OfList delta) ∧
      st'.referenceTargetOrn =
        (if st.useOri = true then
           quatMul st.referenceTargetOrn
             (clipRotDelta (vec3OfList (delta.drop 3)) st.ikOriLimit)
         else fixedOrnQuat) := by
  cases hO : st.useOri with
  | true =>
    simp only [set_goal, update, make_input, hO, if_true]
    rw [get_control_rot_eq]
    exact ⟨_, rfl, rfl, rfl, rfl, rfl, rfl, rfl⟩
  | false =>
    simp only [set_goal, update, make_input, hO, Bool.false_eq_true, if_false]
    rw [get_control_desrot_eq]
    exact ⟨_, rfl, rfl, rfl, rfl, rfl, rfl, rfl⟩

/-- Claim C1: in the source as it stands, every completed call to
`joint_positions_for_eef_command` returns `None` rather than a sequence of
joint angles — the converge-to-IK-solution step was removed
(`arm_joint_pos = None`, source lines 253–254), contradicting the function's
own doc comment, which promises a list of size `num_joints`. -/
theorem C1_joint_positions_returns_no_sequence
    (B : Backend) (st : CtrlState) (dpos : Vec3)
    (rotation desiredRotation : Option Mat3) (u : Bool)
    (st1 : CtrlState) (ret : Option (List ℝ))
    (h : jointPositionsForEefCommand B st dpos rotation desiredRotation u
      = some (st1, ret)) :
    ret = none := by
  unfold jointPositionsForEefCommand at h
  cases hr : eefCommandRotation B st rotation desiredRotation <;> rw [hr] at h
  · simp at h
  · simp only [Option.map_some', Option.some.injEq, Prod.mk.injEq] at h
    exact h.2.symm

/-- Witness for C1 at a concrete input. -/
theorem C1_witness :
    jointPositionsForEefCommand B0 baseState 0 (some mat3Id) none false
      = some (baseState, none) ∧ (none : Option (List ℝ)) = none :=
  ⟨rfl, C1_joint_positions_returns_no_sequence B0 baseState 0 (some mat3Id) none
    false baseState none rfl⟩

/-- Counterexample to claim C2: in the configuration with both `use_ori` and
`use_z_ori` set, `control_dim` is 7 while `control_limits` returns arrays of
length 6 — the dimensionality does not match for that combination. -/
theorem C2_counterexample :
    (control_limits stateBothOri).2.length = 6 ∧
    controlDim stateBothOri.useOri stateBothOri.useZOri = 7 ∧
    (control_limits stateBothOri).2.length
      ≠ controlDim stateBothOri.useOri stateBothOri.useZOri := by
  refine ⟨rfl, rfl, by decide⟩

/-- Claim C2 (amended): for every configuration other than the unsupported
combination `use_ori ∧ use_z_ori`, `control_limits` returns the symmetric pair
`(-max, max)` whose dimensionality equals `control_dim` (6, 4, or 3). -/
theorem C2_control_limits_dim (st : CtrlState)
    (h : ¬(st.useOri = true ∧ st.useZOri = true)) :
    (control_limits st).1.length = controlDim st.useOri st.useZOri ∧
    (control_limits st).2.length = controlDim st.useOri st.useZOri ∧
    (control_limits st).1 = (control_limits st).2.map Neg.neg := by
  refine ⟨?_, ?_, rfl⟩ <;>
  · cases hO : st.useOri <;> cases hZ : st.useZOri <;>
      simp_all [control_limits, controlLimitsMax, controlDim]

/-- Witness for C2 at the position-only configuration. -/
theorem C2_witness :
    ¬(statePosOnly.useOri = true ∧ statePosOnly.useZOri = true) ∧
    ((control_limits statePosOnly).1.length
        = controlDim statePosOnly.useOri statePosOnly.useZOri ∧
     (control_limits statePosOnly).2.length
        = controlDim statePosOnly.useOri statePosOnly.useZOri ∧
     (control_limits statePosOnly).1 = (control_limits statePosOnly).2.map Neg.neg) :=
  ⟨by decide, C2_control_limits_dim statePosOnly (by decide)⟩

/-- Claim C3: the positional path of `_clip_ik_input` scales an over-limit
delta to magnitude exactly `ik_pos_limit` while preserving its direction
(a positive multiple of the input), leaves an in-limit delta unchanged, and
never increases the magnitude. -/
theorem C3_clip_preserves_direction (limit : ℝ) (d : Vec3) (hlim : 0 < limit) :
    (limit < norm3 d →
       norm3 (clipIkInputPos limit d) = limit ∧
       ∃ c : ℝ, 0 < c ∧ clipIkInputPos limit d = c • d) ∧
    (norm3 d ≤ limit → clipIkInputPos limit d = d) ∧
    norm3 (clipIkInputPos limit d) ≤ norm3 d := by
  have hb : norm3 d ≤ limit → clipIkInputPos limit d = d := by
    intro h
    unfold clipIkInputPos clip_translation
    split
    · rw [if_neg (not_lt.2 h)]
    · rfl
  have ha : limit < norm3 d →
      norm3 (clipIkInputPos limit d) = limit ∧
      ∃ c : ℝ, 0 < c ∧ clipIkInputPos limit d = c • d := by
    intro h
    have hpos : 0 < norm3 d := lt_trans hlim h
    have hne : norm3 d ≠ 0 := ne_of_gt hpos
    have hguard : d.x ≠ 0 ∨ d.y ≠ 0 ∨ d.z ≠ 0 := by
      by_contra hc
      push_neg at hc
      apply hne
      rw [norm3_eq_zero]
      ext <;> simp [hc.1, hc.2.1, hc.2.2]
    have hcl : clipIkInputPos limit d = (limit / norm3 d) • d := by
      unfold clipIkInputPos clip_translation
      rw [if_pos hguard, if_pos h]
    have hc0 : 0 < limit / norm3 d := div_pos hlim hpos
    refine ⟨?_, limit / norm3 d, hc0, hcl⟩
    rw [hcl, norm3_smul, abs_of_pos hc0, div_mul_cancel₀ _ hne]
  refine ⟨ha, hb, ?_⟩
  rcases le_or_lt (norm3 d) limit with h | h
  · rw [hb h]
  · rw [(ha h).1]
    exact le_of_lt h

/-- Witness for C3 at limit 1 and the delta (3, 4, 0) of magnitude 5. -/
theorem C3_witness :
    0 < (1 : ℝ) ∧
    ((1 < norm3 (⟨3, 4, 0⟩ : Vec3) →
        norm3 (clipIkInputPos 1 (⟨3, 4, 0⟩ : Vec3)) = 1 ∧
        ∃ c : ℝ, 0 < c ∧ clipIkInputPos 1 (⟨3, 4, 0⟩ : Vec3) = c • (⟨3, 4, 0⟩ : Vec3)) ∧
     (norm3 (⟨3, 4, 0⟩ : Vec3) ≤ 1 → clipIkInputPos 1 (⟨3, 4, 0⟩ : Vec3) = ⟨3, 4, 0⟩) ∧
     norm3 (clipIkInputPos 1 (⟨3, 4, 0⟩ : Vec3)) ≤ norm3 (⟨3, 4, 0⟩ : Vec3)) :=
  ⟨one_pos, C3_clip_preserves_direction 1 ⟨3, 4, 0⟩ one_pos⟩

lemma clip_eval_scenario :
    clipIkInputPos baseState.ikPosLimit (vec3OfList deltaX) = ⟨1 / 20, 0, 0⟩ := by
  show clipIkInputPos (1 / 20 : ℝ) (⟨1 / 10, 0, 0⟩ : Vec3) = ⟨1 / 20, 0, 0⟩
  have hn : norm3 (⟨1 / 10, 0, 0⟩ : Vec3) = 1 / 10 := by
    unfold norm3
    dsimp
    rw [show ((1 : ℝ) / 10) ^ 2 + 0 ^ 2 + 0 ^ 2 = (1 / 10) ^ 2 by ring]
    exact Real.sqrt_sq (by norm_num)
  unfold clipIkInputPos clip_translation
  rw [if_pos (Or.inl (show ((1 : ℝ) / 10) ≠ 0 by norm_num)),
      hn, if_pos (by norm_num : (1 : ℝ) / 20 < 1 / 10)]
  ext <;> dsimp <;> norm_num

/-- Both counterexamples below rest on this evaluation: on a position-only
controller, `set_goal` with the all-zero action sets `reference_target_orn` to
the fixed frame quaternion. -/
lemma set_goal_zero_posOnly_orn :
    (set_goal B0 sim0 statePosOnly zeros6).map CtrlState.referenceTargetOrn
      = some fixedOrnQuat := by
  obtain ⟨st', heq, _, _, _, _, _, horn⟩ := set_goal_exists B0 sim0 statePosOnly zeros6
  rw [heq, Option.map_some', horn, if_neg (by decide)]

/-- Counterexample to claim C4 as universally stated: on a position-only
controller (`use_ori = False`) whose reference orientation is the identity, a
`set_goal` call with the all-zero action leaves `reference_target_orn` equal to
the fixed frame quaternion, not to `old ⊗ relative` (which here is the
identity). -/
theorem C4_counterexample :
    (set_goal B0 sim0 statePosOnly zeros6).map CtrlState.referenceTargetOrn
      = some fixedOrnQuat ∧
    fixedOrnQuat ≠ quatMul statePosOnly.referenceTargetOrn
        (clipRotDelta (vec3OfList (zeros6.drop 3)) statePosOnly.ikOriLimit) := by
  refine ⟨set_goal_zero_posOnly_orn, ?_⟩
  rw [show vec3OfList (zeros6.drop 3) = (0 : Vec3) from rfl, clipRotDelta_zero,
      quatMul_quatId, show statePosOnly.referenceTargetOrn = quatId from rfl]
  exact fixedOrnQuat_ne_quatId

/-- Claim C4 (amended): every `set_goal(delta)` call increments
`reference_target_pos` by the clipped positional delta scaled by the fixed
sensitivity `user_sensitivity = 0.3`; in full-pose mode (`use_ori = True`)
`reference_target_orn` is updated by quaternion composition
`new = old ⊗ relative` with the clipped relative rotation (in position-only
mode it is pinned to the fixed reference orientation instead). -/
theorem C4_set_goal_reference_updates (B : Backend) (sim : Sim) (st : CtrlState)
    (delta : List ℝ) (hs : st.userSensitivity = 3 / 10) :
    (set_goal B sim st delta).map CtrlState.referenceTargetPos
      = some (st.referenceTargetPos
          + (3 / 10 : ℝ) • clipIkInputPos st.ikPosLimit (vec3OfList delta)) ∧
    (st.useOri = true →
      (set_goal B sim st delta).map CtrlState.referenceTargetOrn
        = some (quatMul st.referenceTargetOrn
            (clipRotDelta (vec3OfList (delta.drop 3)) st.ikOriLimit))) := by
  obtain ⟨st', heq, _, _, _, _, hpos, horn⟩ := set_goal_exists B sim st delta
  constructor
  · rw [heq, Option.map_some', hpos, hs]
  · intro hO
    rw [heq, Option.map_some', horn, if_pos hO]

/-- Witness for C4: the scenario with `ik_pos_limit = 0.05` and action
[0.1, 0, 0, 0, 0, 0] — the reference position moves by exactly
`0.05 * user_sensitivity` along x. -/
theorem C4_witness :
    baseState.userSensitivity = 3 / 10 ∧
    (set_goal B0 sim0 baseState deltaX).map CtrlState.referenceTargetPos
      = some (baseState.referenceTargetPos
          + (3 / 10 : ℝ) • (⟨1 / 20, 0, 0⟩ : Vec3)) := by
  refine ⟨rfl, ?_⟩
  have h := (C4_set_goal_reference_updates B0 sim0 baseState deltaX rfl).1
  rwa [clip_eval_scenario] at h

/-- Counterexample to claim C7 as universally stated: on a position-only
controller whose reference orientation is the identity, the first `set_goal`
with the all-zero action changes `reference_target_orn` (to the fixed frame
quaternion). -/
theorem C7_counterexample :
    (set_goal B0 sim0 statePosOnly zeros6).map CtrlState.referenceTargetOrn
      = some fixedOrnQuat ∧
    fixedOrnQuat ≠ statePosOnly.referenceTargetOrn := by
  refine ⟨set_goal_zero_posOnly_orn, ?_⟩
  rw [show statePosOnly.referenceTargetOrn = quatId from rfl]
  exact fixedOrnQuat_ne_quatId

lemma set_goal_zero_step (B : Backend) (sim : Sim) (st : CtrlState) (delta : List ℝ)
    (hp : vec3OfList delta = 0) (hr : vec3OfList (delta.drop 3) = 0) :
    ∃ st', set_goal B sim st delta = some st' ∧ st'.useOri = st.useOri ∧
      st'.referenceTargetPos = st.referenceTargetPos ∧
      (st.useOri = true → st'.referenceTargetOrn = st.referenceTargetOrn) := by
  obtain ⟨st', heq, hO, _, _, _, hpos, horn⟩ := set_goal_exists B sim st delta
  refine ⟨st', heq, hO, ?_, ?_⟩
  · rw [hpos, hp, clipIkInputPos_zero, Vec3.smul_zero, Vec3.add_zero]
  · intro h
    rw [horn, if_pos h, hr, clipRotDelta_zero, quatMul_quatId]

/-- Claim C7 (amended): any number of `set_goal` repetitions with an all-zero
action never changes `reference_target_pos` (the zero positional delta skips
the clip computation), and in full-pose mode (`use_ori = True`) never changes
`reference_target_orn`; in position-only mode the orientation is pinned to the
fixed reference frame by every call, so it differs from an arbitrary starting
orientation after the first call. -/
theorem C7_set_goal_zero_idempotent (B : Backend) (sim : Sim) (delta : List ℝ)
    (n : ℕ) (st : CtrlState)
    (hp : vec3OfList delta = 0) (hr : vec3OfList (delta.drop 3) = 0) :
    (setGoalN B sim delta n st).map CtrlState.referenceTargetPos
      = some st.referenceTargetPos ∧
    (st.useOri = true →
      (setGoalN B sim delta n st).map CtrlState.referenceTargetOrn
        = some st.referenceTargetOrn) := by
  induction n generalizing st with
  | zero => exact ⟨rfl, fun _ => rfl⟩
  | succ n ih =>
    obtain ⟨st', heq, hO, hpos, horn⟩ := set_goal_zero_step B sim st delta hp hr
    constructor
    · simp only [setGoalN, heq, Option.some_bind]
      rw [(ih st').1, hpos]
    · intro h
      simp only [setGoalN, heq, Option.some_bind]
      rw [(ih st').2 (hO.trans h), horn h]

/-- Witness for C7: three zero-action repetitions on the full-pose state. -/
theorem C7_witness :
    vec3OfList zeros6 = 0 ∧ vec3OfList (zeros6.drop 3) = 0 ∧
    ((setGoalN B0 sim0 zeros6 3 baseState).map CtrlState.referenceTargetPos
       = some baseState.referenceTargetPos ∧
     (baseState.useOri = true →
       (setGoalN B0 sim0 zeros6 3 baseState).map CtrlState.referenceTargetOrn
         = some baseState.referenceTargetOrn)) :=
  ⟨rfl, rfl, C7_set_goal_zero_idempotent B0 sim0 zeros6 3 baseState rfl rfl⟩

lemma set_goal_preserves_unit (B : Backend) (sim : Sim) (st : CtrlState)
    (delta : List ℝ) (st' : CtrlState)
    (heq : set_goal B sim st delta = some st')
    (hn : quatNormSq st.referenceTargetOrn = 1) :
    quatNormSq st'.referenceTargetOrn = 1 := by
  obtain ⟨st'', heq', _, _, _, _, _, horn⟩ := set_goal_exists B sim st delta
  rw [heq, Option.some.injEq] at heq'
  subst heq'
  rw [horn]
  split
  · rw [quatNormSq_quatMul, hn, clipRotDelta_normSq, one_mul]
  · exact fixedOrnQuat_normSq

/-- Claim C8: starting from a unit reference orientation quaternion, any
sequence of `set_goal` calls keeps `reference_target_orn` a unit quaternion —
in full-pose mode each update composes two unit quaternions (the clipped
relative rotation is unit by construction), and in position-only mode the
orientation is pinned to a fixed unit quaternion. -/
theorem C8_reference_orn_stays_unit (B : Backend) (sim : Sim)
    (deltas : List (List ℝ)) (st : CtrlState)
    (hn : quatNorm st.referenceTargetOrn = 1) :
    (setGoalSeq B sim deltas st).elim True
      (fun st' => quatNorm st'.referenceTargetOrn = 1) := by
  induction deltas generalizing st with
  | nil => exact hn
  | cons d ds ih =>
    obtain ⟨st', heq, _, _, _, _, _, _⟩ := set_goal_exists B sim st d
    simp only [setGoalSeq, heq, Option.some_bind]
    exact ih st' (quatNorm_eq_one.2
      (set_goal_preserves_unit B sim st d st' heq (quatNorm_eq_one.1 hn)))

/-- Witness for C8: one zero-action call on the full-pose state, whose initial
reference orientation is the identity quaternion. -/
theorem C8_witness :
    quatNorm baseState.referenceTargetOrn = 1 ∧
    (setGoalSeq B0 sim0 [zeros6] baseState).elim True
      (fun st' => quatNorm st'.referenceTargetOrn = 1) := by
  have hn : quatNorm baseState.referenceTargetOrn = 1 := by
    rw [show baseState.referenceTargetOrn = quatId from rfl, quatNorm_eq_one]
    exact quatNormSq_quatId
  exact ⟨hn, C8_reference_orn_stays_unit B0 sim0 [zeros6] baseState hn⟩

/-- Claim C5: every completing `get_control` call returns the velocity vector
of the proportional law with fixed gain 10 —
`v[i] = -10 * (joint_pos[i] - commanded_joint_positions[i])` for every
controlled joint — and stores the commanded positions and velocities in the
controller state. -/
theorem C5_get_control_p_law (B : Backend) (st : CtrlState) (dpos : Option Vec3)
    (rotation desiredRotation : Option Mat3) (zRot : Option ℝ) (u : Bool)
    (st' : CtrlState) (v : List ℝ)
    (h : get_control B st dpos rotation desiredRotation zRot u = some (st', v)) :
    st'.commandedJointVelocities = some v ∧
    ∃ cmd, st'.commandedJointPositions = some cmd ∧
      v = List.zipWith (fun p c => -10 * (p - c)) st.jointPos cmd ∧
      ∀ i, i < v.length →
        v.getD i 0 = -10 * (st.jointPos.getD i 0 - cmd.getD i 0) := by
  cases hd : dpos with
  | none =>
    rw [hd, get_control_nodpos] at h
    simp at h
  | some dp =>
    cases hrot : rotation with
    | some r =>
      rw [hd, hrot, get_control_rot_eq] at h
      simp only [Option.some.injEq, Prod.mk.injEq] at h
      obtain ⟨hst, hv⟩ := h
      subst hst
      subst hv
      refine ⟨rfl, _, rfl, ?_, ?_⟩
      · rw [eefCommandUpdate_jointPos]
      · intro i hi
        rw [eefCommandUpdate_jointPos] at hi ⊢
        exact getD_zipWith _ _ _ i hi
    | none =>
      cases hdr : desiredRotation with
      | some dr =>
        rw [hd, hrot, hdr, get_control_desrot_eq] at h
        simp only [Option.some.injEq, Prod.mk.injEq] at h
        obtain ⟨hst, hv⟩ := h
        subst hst
        subst hv
        refine ⟨rfl, _, rfl, ?_, ?_⟩
        · rw [eefCommandUpdate_jointPos]
        · intro i hi
          rw [eefCommandUpdate_jointPos] at hi ⊢
          exact getD_zipWith _ _ _ i hi
      | none =>
        rw [hd, hrot, hdr, get_control_norot] at h
        simp at h

/-- Witness for C5 at a concrete call. -/
theorem C5_witness :
    get_control B0 baseState (some 0) (some mat3Id) none none false
      = some (stW5, velW5) ∧
    (stW5.commandedJointVelocities = some velW5 ∧
     ∃ cmd, stW5.commandedJointPositions = some cmd ∧
       velW5 = List.zipWith (fun p c => -10 * (p - c)) baseState.jointPos cmd ∧
       ∀ i, i < velW5.length →
         velW5.getD i 0 = -10 * (baseState.jointPos.getD i 0 - cmd.getD i 0)) :=
  ⟨rfl, C5_get_control_p_law B0 baseState (some 0) (some mat3Id) none none false
    stW5 velW5 rfl⟩

/-- Claim C6: with a `z_rot` argument, `get_control` commands the IK solution
on every joint but the last, whose commanded position becomes the current last
joint angle plus `z_rot`.  The call shape is the one the program actually uses
with `z_rot` — yaw-only mode (`use_ori = False`, `use_z_ori = True`), whose
`set_goal` invokes `get_control` with `rotation = None` and a
`desired_rotation` (source lines 177–180, 294–302), driving the IK pipeline
through its `desired_rotation` branch. -/
theorem C6_z_rot_overrides_last_joint (B : Backend) (st : CtrlState) (dp : Vec3)
    (drot : Mat3) (z : ℝ) (u : Bool) (st1 : CtrlState) (sol : List ℝ)
    (st' : CtrlState) (v : List ℝ)
    (hik : jointPositionsForEefCommandSpec B st dp none (some drot) u = some (st1, sol))
    (hne : sol ≠ [])
    (h : get_control B st (some dp) none (some drot) (some z) u = some (st', v)) :
    ∃ cmd, st'.commandedJointPositions = some cmd ∧
      cmd.length = sol.length ∧
      cmd.getLastD 0 = st.jointPos.getLastD 0 + z ∧
      ∀ i, i + 1 < sol.length → cmd.getD i 0 = sol.getD i 0 := by
  unfold jointPositionsForEefCommandSpec eefCommandRotation at hik
  simp only [Option.map_some', Option.some.injEq, Prod.mk.injEq] at hik
  obtain ⟨hst1, hsol⟩ := hik
  rw [get_control_desrot_eq] at h
  simp only [Option.some.injEq, Prod.mk.injEq] at h
  obtain ⟨hst, hv⟩ := h
  subst hst
  subst hv
  simp only [eefCommandUpdate_jointPos, hsol]
  refine ⟨_, rfl, ?_, ?_, ?_⟩
  · exact setLast_length sol _ hne
  · exact setLast_getLastD sol _
  · exact fun i hi => setLast_getD sol _ i hi

/-- Witness for C6: a yaw-only controller state, the fixed desired rotation
`setOriMat` that `_make_input` emits in that mode, and `z_rot = 1`. -/
theorem C6_witness :
    (jointPositionsForEefCommandSpec B0 stateYawOnly 0 none (some setOriMat) false
       = some (stateYawOnly, [0, 0]) ∧
     ([(0 : ℝ), 0] ≠ []) ∧
     get_control B0 stateYawOnly (some 0) none (some setOriMat) (some 1) false
       = some (stW6, velW6)) ∧
    (∃ cmd, stW6.commandedJointPositions = some cmd ∧
      cmd.length = ([(0 : ℝ), 0]).length ∧
      cmd.getLastD 0 = stateYawOnly.jointPos.getLastD 0 + 1 ∧
      ∀ i, i + 1 < ([(0 : ℝ), 0]).length → cmd.getD i 0 = ([(0 : ℝ), 0]).getD i 0) :=
  ⟨⟨rfl, by simp, rfl⟩,
   C6_z_rot_overrides_last_joint B0 stateYawOnly 0 setOriMat 1 false stateYawOnly
     [0, 0] stW6 velW6 rfl (by simp) rfl⟩

/-- Claim C10: with a configured position or orientation interpolator of order
other than 1 (non-linear), `run_controller` fails before producing any output
(the unassigned desired pose raises downstream), so it never silently returns
torques computed from a garbage desired pose. -/
theorem C10_nonlinear_interpolation_fails_fast (B : Backend) (sim : Sim)
    (st : CtrlState)
    (h : (∃ ip, st.interpolatorPos = some ip ∧ ip.order ≠ 1) ∨
         (∃ io, st.interpolatorOri = some io ∧ io.order ≠ 1)) :
    run_controller B sim st = none := by
  rcases h with ⟨ip, hip, hord⟩ | ⟨io, hio, hord⟩
  · simp only [run_controller, update]
    rw [hip]
    simp only [if_neg hord]
    cases hio2 : st.interpolatorOri with
    | none => simp
    | some io2 =>
      by_cases h2 : io2.order = 1
      · cases hor : st.oriRef with
        | none => simp [h2]
        | some oref => simp [h2]
      · simp [h2]
  · simp only [run_controller, update]
    cases hip2 : st.interpolatorPos with
    | none => simp [hio, hord, get_control_norot]
    | some ip2 =>
      by_cases h2 : ip2.order = 1
      · simp [hio, hord, h2, get_control_norot]
      · simp [hio, hord, h2]

/-- Witness for C10 at a position interpolator of order 2. -/
theorem C10_witness : run_controller B0 sim0 stateInterpOrder2 = none :=
  C10_nonlinear_interpolation_fails_fast B0 sim0 stateInterpOrder2
    (Or.inl ⟨⟨2, 0, fun _ => 0, 0⟩, rfl, by norm_num⟩)

/-- Claim C9: a completing `run_controller` call leaves
`reference_target_pos`, `reference_target_orn` and `ik_robot_target_pos`
unchanged (its `get_control` call keeps `update_targets = False`), and when
neither interpolator is configured it reuses the previously stored velocity
goal without recomputing — `commanded_joint_positions`,
`commanded_joint_velocities` and the stored velocity goal are untouched. -/
theorem C9_run_controller_preserves_targets (B : Backend) (sim : Sim)
    (st st' : CtrlState) (t : List ℝ)
    (h : run_controller B sim st = some (st', t)) :
    st'.referenceTargetPos = st.referenceTargetPos ∧
    st'.referenceTargetOrn = st.referenceTargetOrn ∧
    st'.ikRobotTargetPos = st.ikRobotTargetPos ∧
    (st.interpolatorPos = none → st.interpolatorOri = none →
      st'.commandedJointPositions = st.commandedJointPositions ∧
      st'.commandedJointVelocities = st.commandedJointVelocities ∧
      st'.goalVel = st.goalVel) := by
  revert h
  simp only [run_controller, update]
  cases hip : st.interpolatorPos with
  | none =>
    simp only [Option.isSome_none, Bool.false_or]
    cases hio : st.interpolatorOri with
    | none =>
      intro h
      simp only [Option.isSome_none, Bool.false_eq_true, if_false,
        Option.some.injEq, Prod.mk.injEq] at h
      obtain ⟨hst, ht⟩ := h
      subst hst
      exact ⟨rfl, rfl, rfl, fun _ _ => ⟨rfl, rfl, rfl⟩⟩
    | some io =>
      by_cases ho : io.order = 1
      · cases hor : st.oriRef with
        | none =>
          intro h
          simp [ho] at h
        | some oref =>
          intro h
          simp only [ho, if_true, Option.isSome_some, get_control_rot_eq,
            eefCommandUpdate_false, Option.some.injEq, Prod.mk.injEq] at h
          obtain ⟨hst, ht⟩ := h
          subst hst
          exact ⟨rfl, rfl, rfl, fun _ h2 => absurd h2 (by simp)⟩
      · intro h
        simp [ho, get_control_norot] at h
  | some ip =>
    simp only [Option.isSome_some, Bool.true_or]
    by_cases hpo : ip.order = 1
    · cases hio : st.interpolatorOri with
      | none =>
        intro h
        simp only [hpo, if_true, get_control_rot_eq, eefCommandUpdate_false,
          Option.some.injEq, Prod.mk.injEq] at h
        obtain ⟨hst, ht⟩ := h
        subst hst
        exact ⟨rfl, rfl, rfl, fun h1 _ => absurd h1 (by simp)⟩
      | some io =>
        by_cases ho : io.order = 1
        · cases hor : st.oriRef with
          | none =>
            intro h
            simp [hpo, ho] at h
          | some oref =>
            intro h
            simp only [hpo, ho, if_true, get_control_rot_eq,
              eefCommandUpdate_false, Option.some.injEq, Prod.mk.injEq] at h
            obtain ⟨hst, ht⟩ := h
            subst hst
            exact ⟨rfl, rfl, rfl, fun h1 _ => absurd h1 (by simp)⟩
        · intro h
          simp [hpo, ho, get_control_norot] at h
    · cases hio : st.interpolatorOri with
      | none =>
        intro h
        simp [hpo] at h
      | some io =>
        by_cases ho : io.order = 1
        · cases hor : st.oriRef with
          | none =>
            intro h
            simp [hpo, ho] at h
          | some oref =>
            intro h
            simp [hpo, ho] at h
        · intro h
          simp [hpo, ho] at h

/-- Witness for C9 at the interpolator-free base state. -/
theorem C9_witness :
    run_controller B0 sim0 baseState
      = some (update sim0 baseState,
          B0.superTorques baseState.goalVel baseState.jointPos) ∧
    ((update sim0 baseState).referenceTargetPos = baseState.referenceTargetPos ∧
     (update sim0 baseState).referenceTargetOrn = baseState.referenceTargetOrn ∧
     (update sim0 baseState).ikRobotTargetPos = baseState.ikRobotTargetPos ∧
     (baseState.interpolatorPos = none → baseState.interpolatorOri = none →
       (update sim0 baseState).commandedJointPositions
           = baseState.commandedJointPositions ∧
       (update sim0 baseState).commandedJointVelocities
           = baseState.commandedJointVelocities ∧
       (update sim0 baseState).goalVel = baseState.goalVel)) :=
  ⟨rfl, C9_run_controller_preserves_targets B0 sim0 baseState
    (update sim0 baseState)
    (B0.superTorques baseState.goalVel baseState.jointPos) rfl⟩

end










